import Mathlib

set_option linter.unnecessarySeqFocus false

/-!
Shallow embedding of the select()-based chat server in src/server.cpp.

Sockets are modelled as `Int` (file descriptors). Byte strings (C `char`
buffers and `std::string` values) are modelled as `List Nat` of byte values.
The two process-global containers are

  std::vector<int> clients;                 -- `ServerState.clients : List Int`
  std::map<int, std::string> client_names;  -- `ServerState.names : Int → Option (List Nat)`

Side effects that the claims talk about (messages sent, console log lines,
sockets closed, container mutations) are made explicit as result lists.
-/

namespace ChatServer

/-- Byte encoding of a Lean string literal, for the fixed texts in server.cpp. -/
def strBytes (s : String) : List Nat := s.toList.map Char.toNat

/-- Conversion of a received buffer to a C string: `read` puts `chunk` into a
zeroed 1024-byte buffer and `std::string message(buffer)` reads it up to the
first NUL byte, so the resulting string is the chunk truncated at the first 0. -/
def cstr (chunk : List Nat) : List Nat := chunk.takeWhile (fun b => b ≠ 0)

/-- The greeting sent right after accept: `"Enter your username: "`. -/
def promptMsg : List Nat := strBytes "Enter your username: "

/-- Suffix of the join notice: `" has joined the chat!"`. -/
def joinedSuffix : List Nat := strBytes " has joined the chat!"

/-- Suffix of the departure notice: `" has left the chat"`. -/
def leftSuffix : List Nat := strBytes " has left the chat"

/-- Separator of the regular chat line: `": "`. -/
def colonSep : List Nat := strBytes ": "

/-- The two process-global containers of server.cpp. -/
structure ServerState where
  clients : List Int
  names : Int → Option (List Nat)

/-- Map update, modelling `client_names[client] = message`. -/
def mapInsert (m : Int → Option (List Nat)) (k : Int) (v : List Nat) :
    Int → Option (List Nat) :=
  fun x => if x = k then some v else m x

/-- Map erasure, modelling `client_names.erase(client)`. -/
def mapErase (m : Int → Option (List Nat)) (k : Int) :
    Int → Option (List Nat) :=
  fun x => if x = k then none else m x

/-- The `broadcast` function of server.cpp: loops over `clients` in order and
sends `message` to every client whose descriptor differs from `sender_socket`.
The result is the list of (recipient, message) send calls, in order. -/
def broadcast (clients : List Int) (message : List Nat) (sender_socket : Int) :
    List (Int × List Nat) :=
  clients.filterMap (fun c => if c = sender_socket then none else some (c, message))

/-- Console log lines the claims mention. -/
inductive LogEntry where
  | bareSocket (c : Int)
  | userDisconnected (u : List Nat)
  | joined (u : List Nat)
  | chat (u m : List Nat)
  | newClient (c : Int)
  | acceptFailed
deriving DecidableEq

/-- Container-mutating operations and broadcast invocations, traced in the
order the code performs them. `nameLookupInsert` is the implicit insertion
done by `client_names[client]` when the key is absent (std::map::operator[]
default-constructs a value for a missing key). -/
inductive Op where
  | nameLookupInsert
  | nameStore
  | nameErase
  | clientErase
  | broadcastCall
deriving DecidableEq

/-- Whether an operation mutates the UsernameMap. -/
def isNameOp : Op → Bool
  | Op.nameLookupInsert => true
  | Op.nameStore => true
  | Op.nameErase => true
  | _ => false

/-- Result of handling one read event: new global state, the send calls made,
the log lines printed, the sockets closed, and the traced operations. -/
structure HandleResult where
  state : ServerState
  sends : List (Int × List Nat)
  logs : List LogEntry
  closed : List Int
  ops : List Op

/-- Outcome of `read(client, buffer, 1024)`: `valread <= 0` is `disconnect`,
`valread > 0` is `data chunk` with `chunk` the bytes placed in the buffer. -/
inductive ReadResult where
  | disconnect
  | data (chunk : List Nat)

/-- The disconnection path (server.cpp lines 153-172), for the client at
index `i` of the clients vector. `client_names[client]` inserts an empty
string when no entry exists; if the looked-up name is empty only the bare
socket is logged, otherwise the departure notice is broadcast with sender
`-1`; then the socket is closed, erased from `clients` at index `i`, and its
map entry erased. -/
def handleDisconnect (st : ServerState) (i : Nat) (client : Int) : HandleResult :=
  match st.names client with
  | none =>
      { state := { clients := st.clients.eraseIdx i,
                   names := mapErase (mapInsert st.names client []) client },
        sends := [],
        logs := [LogEntry.bareSocket client],
        closed := [client],
        ops := [Op.nameLookupInsert, Op.clientErase, Op.nameErase] }
  | some u =>
      if u = [] then
        { state := { clients := st.clients.eraseIdx i, names := mapErase st.names client },
          sends := [],
          logs := [LogEntry.bareSocket client],
          closed := [client],
          ops := [Op.clientErase, Op.nameErase] }
      else
        { state := { clients := st.clients.eraseIdx i, names := mapErase st.names client },
          sends := broadcast st.clients (u ++ leftSuffix) (-1),
          logs := [LogEntry.userDisconnected u],
          closed := [client],
          ops := [Op.broadcastCall, Op.clientErase, Op.nameErase] }

/-- The incoming-data path (server.cpp lines 174-199): the buffer is read as
a C string; if the client has no UsernameMap entry the string becomes its
username and a join notice is broadcast excluding the client, otherwise the
line `"<username>: <message>"` is broadcast excluding the client. -/
def handleData (st : ServerState) (client : Int) (chunk : List Nat) : HandleResult :=
  let message := cstr chunk
  match st.names client with
  | none =>
      { state := { clients := st.clients, names := mapInsert st.names client message },
        sends := broadcast st.clients (message ++ joinedSuffix) client,
        logs := [LogEntry.joined message],
        closed := [],
        ops := [Op.nameStore, Op.broadcastCall] }
  | some username =>
      { state := st,
        sends := broadcast st.clients (username ++ colonSep ++ message) client,
        logs := [LogEntry.chat username message],
        closed := [],
        ops := [Op.broadcastCall] }

/-- One read event on the client at index `i` of the clients vector
(the Session Lifecycle Handler, server.cpp lines 145-199). -/
def handleRead (st : ServerState) (i : Nat) (client : Int) :
    ReadResult → HandleResult
  | ReadResult.disconnect => handleDisconnect st i client
  | ReadResult.data chunk => handleData st client chunk

/-- Result of the per-iteration scan of the clients vector: the final global
state, the send calls made, and the descriptors visited by the loop in order. -/
structure ScanResult where
  state : ServerState
  sends : List (Int × List Nat)
  visited : List Int

/-- The client scan loop `for (int i = 0; i < clients.size(); i++)`
(server.cpp lines 141-201), starting at index `i`. `ready c` models
`FD_ISSET(c, read_fds)` and `events c` the outcome of `read` on `c`. On a
disconnection the element at the current index is erased and `i--; i++`
leaves the index unchanged; otherwise the index advances. -/
def scanFrom (ready : Int → Bool) (events : Int → ReadResult)
    (st : ServerState) (i : Nat) : ScanResult :=
  if h : i < st.clients.length then
    let client := st.clients.get ⟨i, h⟩
    if ready client then
      match events client with
      | ReadResult.disconnect =>
          let r := handleDisconnect st i client
          let rest := scanFrom ready events r.state i
          { state := rest.state, sends := r.sends ++ rest.sends,
            visited := client :: rest.visited }
      | ReadResult.data chunk =>
          let r := handleData st client chunk
          let rest := scanFrom ready events r.state (i + 1)
          { state := rest.state, sends := r.sends ++ rest.sends,
            visited := client :: rest.visited }
    else
      let rest := scanFrom ready events st (i + 1)
      { state := rest.state, sends := rest.sends, visited := client :: rest.visited }
  else
    { state := st, sends := [], visited := [] }
termination_by st.clients.length - i
decreasing_by
  · simp only [handleDisconnect]
    split
    · dsimp only
      simp only [List.length_eraseIdx_of_lt h]
      omega
    · split <;> dsimp only <;> simp only [List.length_eraseIdx_of_lt h] <;> omega
  · simp only [handleData]
    split <;> dsimp only <;> omega
  · omega

/-- What happened on the listening socket this iteration: it was not ready,
or `accept` returned the descriptor `fd` (the code treats `fd < 0` as an
accept failure). -/
inductive ListenerEvent where
  | quiet
  | accepted (fd : Int)

/-- Result of one whole iteration of the while loop. -/
structure IterResult where
  state : ServerState
  sends : List (Int × List Nat)
  visited : List Int
  logs : List LogEntry

/-- One iteration of the select loop after a successful select (server.cpp
lines 118-201): if the listener was ready, `accept` ran; a negative result is
logged as a failure and `continue` restarts the outer while loop, skipping
the client scan of this iteration; a valid descriptor is pushed onto
`clients` and sent the username prompt, and then the scan runs. -/
def loopIteration (ready : Int → Bool) (events : Int → ReadResult)
    (le : ListenerEvent) (st : ServerState) : IterResult :=
  match le with
  | ListenerEvent.quiet =>
      let scan := scanFrom ready events st 0
      { state := scan.state, sends := scan.sends, visited := scan.visited, logs := [] }
  | ListenerEvent.accepted fd =>
      if fd < 0 then
        { state := st, sends := [], visited := [], logs := [LogEntry.acceptFailed] }
      else
        let st1 : ServerState := { clients := st.clients ++ [fd], names := st.names }
        let scan := scanFrom ready events st1 0
        { state := scan.state, sends := (fd, promptMsg) :: scan.sends,
          visited := scan.visited,
          logs := [LogEntry.newClient fd] }

/-! ### Basic facts about `broadcast` -/

theorem broadcast_eq_map_filter (cl : List Int) (m : List Nat) (s : Int) :
    broadcast cl m s = (cl.filter (fun c => c ≠ s)).map (fun c => (c, m)) := by
  induction cl with
  | nil => rfl
  | cons a t ih =>
      simp only [broadcast, List.filterMap_cons] at ih ⊢
      by_cases h : a = s
      · simp [h, List.filter_cons, ih]
      · simp [h, List.filter_cons, ih]

theorem count_eq_one_of_nodup_mem {l : List Int} {c : Int}
    (hnd : l.Nodup) (hc : c ∈ l) : l.count c = 1 := by
  induction l with
  | nil => cases hc
  | cons a t ih =>
      rcases List.nodup_cons.mp hnd with ⟨ha, ht⟩
      rcases List.mem_cons.mp hc with h | h
      · subst h
        rw [List.count_cons_self, List.count_eq_zero_of_not_mem ha]
      · have hne : c ≠ a := by
          rintro rfl
          exact ha h
        rw [List.count_cons_of_ne hne, ih ht h]

theorem broadcast_targets (cl : List Int) (m : List Nat) (s : Int) :
    (broadcast cl m s).map Prod.fst = cl.filter (fun c => c ≠ s) := by
  rw [broadcast_eq_map_filter, List.map_map]
  have : (Prod.fst ∘ fun c : Int => (c, m)) = id := rfl
  rw [this, List.map_id]

theorem broadcast_target_count_one (cl : List Int) (m : List Nat) (s c : Int)
    (hnd : cl.Nodup) (hc : c ∈ cl) (hne : c ≠ s) :
    ((broadcast cl m s).map Prod.fst).count c = 1 := by
  rw [broadcast_targets, List.count_filter (by simpa using hne)]
  exact count_eq_one_of_nodup_mem hnd hc

theorem broadcast_recipient_ne (cl : List Int) (m : List Nat) (s : Int)
    (p : Int × List Nat) (hp : p ∈ broadcast cl m s) : p.1 ≠ s := by
  rw [broadcast_eq_map_filter] at hp
  rcases List.mem_map.mp hp with ⟨x, hx, hxe⟩
  rcases List.mem_filter.mp hx with ⟨-, hxs⟩
  subst hxe
  simpa using hxs

theorem broadcast_target_count_excluded (cl : List Int) (m : List Nat) (s : Int) :
    ((broadcast cl m s).map Prod.fst).count s = 0 := by
  rw [List.count_eq_zero]
  intro hmem
  rcases List.mem_map.mp hmem with ⟨p, hp, hps⟩
  exact broadcast_recipient_ne cl m s p hp hps

theorem broadcast_exclude_sentinel (cl : List Int) (m : List Nat) (s : Int)
    (h : ∀ c ∈ cl, c ≠ s) : broadcast cl m s = cl.map (fun c => (c, m)) := by
  rw [broadcast_eq_map_filter]
  have : cl.filter (fun c => c ≠ s) = cl := by
    rw [List.filter_eq_self]
    intro a ha
    simpa using h a ha
  rw [this]

/-! ### Facts about the handlers -/

theorem not_mem_eraseIdx_of_nodup : ∀ (l : List Int) (i : Nat) (c : Int),
    l.Nodup → l[i]? = some c → c ∉ l.eraseIdx i := by
  intro l
  induction l with
  | nil =>
      intro i c _ h
      simp at h
  | cons a t ih =>
      intro i c hnd hi
      rcases List.nodup_cons.mp hnd with ⟨ha, ht⟩
      cases i with
      | zero =>
          have hac : a = c := by simpa using hi
          subst hac
          simpa using ha
      | succ n =>
          have hi' : t[n]? = some c := by simpa using hi
          have hct : c ∈ t := List.getElem?_mem hi'
          have hca : c ≠ a := by
            rintro rfl
            exact ha hct
          intro hmem
          rcases List.mem_cons.mp (by simpa using hmem) with h | h
          · exact hca h
          · exact ih n c ht hi' h

theorem handleData_clients (st : ServerState) (client : Int) (chunk : List Nat) :
    (handleData st client chunk).state.clients = st.clients := by
  cases hnc : st.names client with
  | none => simp [handleData, hnc]
  | some v => simp [handleData, hnc]

theorem handleDisconnect_clients (st : ServerState) (i : Nat) (client : Int) :
    (handleDisconnect st i client).state.clients = st.clients.eraseIdx i := by
  cases hnc : st.names client with
  | none => simp [handleDisconnect, hnc]
  | some v => by_cases hv : v = [] <;> simp [handleDisconnect, hnc, hv]

theorem handleDisconnect_names_client (st : ServerState) (i : Nat) (client : Int) :
    (handleDisconnect st i client).state.names client = none := by
  cases hnc : st.names client with
  | none => simp [handleDisconnect, hnc, mapErase]
  | some v => by_cases hv : v = [] <;> simp [handleDisconnect, hnc, hv, mapErase]

theorem handleDisconnect_names_other (st : ServerState) (i : Nat) (client c : Int)
    (hcc : c ≠ client) :
    (handleDisconnect st i client).state.names c = st.names c := by
  cases hnc : st.names client with
  | none => simp [handleDisconnect, hnc, mapErase, mapInsert, hcc]
  | some v => by_cases hv : v = [] <;> simp [handleDisconnect, hnc, hv, mapErase, hcc]

/-- A first chunk whose first byte is NUL is recorded as the empty username:
the C-string conversion stops at the leading NUL. -/
theorem firstByteNulGivesEmptyName (st : ServerState) (client : Int) (rest : List Nat)
    (hnone : st.names client = none) :
    (handleData st client (0 :: rest)).state.names client = some [] := by
  simp [handleData, hnone, mapInsert, cstr]

/-! ### Claim theorems -/

/-- C2: `broadcast(message, excluded_connection)` sends the message exactly
once to each client in the clients vector whose descriptor differs from the
excluded one, sends zero copies to the excluded descriptor, and with the
sentinel `-1` it sends to every client in the vector, because every tracked
descriptor is nonnegative and hence not `-1`. -/
theorem C2_broadcast_contract (cl : List Int) (m : List Nat) (excl c : Int)
    (hnd : cl.Nodup) (hc : c ∈ cl) (hne : c ≠ excl) (hpos : ∀ x ∈ cl, 0 ≤ x) :
    broadcast cl m excl = (cl.filter (fun x => x ≠ excl)).map (fun x => (x, m)) ∧
    ((broadcast cl m excl).map Prod.fst).count c = 1 ∧
    ((broadcast cl m excl).map Prod.fst).count excl = 0 ∧
    broadcast cl m (-1) = cl.map (fun x => (x, m)) := by
  refine ⟨broadcast_eq_map_filter cl m excl,
          broadcast_target_count_one cl m excl c hnd hc hne,
          broadcast_target_count_excluded cl m excl,
          broadcast_exclude_sentinel cl m (-1) ?_⟩
  intro x hx
  have := hpos x hx
  omega

/-- Witness for C2 at a concrete clients vector. -/
theorem C2_broadcast_contract_witness :
    ([3, 4] : List Int).Nodup ∧ (4 : Int) ∈ ([3, 4] : List Int) ∧ (4 : Int) ≠ 3 ∧
    (∀ x ∈ ([3, 4] : List Int), (0 : Int) ≤ x) ∧
    ((broadcast [3, 4] (strBytes "x") 3).map Prod.fst).count 4 = 1 :=
  ⟨by decide, by decide, by decide, by decide,
   (C2_broadcast_contract [3, 4] (strBytes "x") 3 4 (by decide) (by decide)
      (by decide) (by decide)).2.1⟩

/-- C1: on the regular-message path (the sender already has a UsernameMap
entry holding `u`), handling a data chunk broadcasts the single line
`u ++ ": " ++ message` to exactly the other clients: each client other than
the sender receives it exactly once and the sender receives zero copies. -/
theorem C1_regular_message_broadcast (st : ServerState) (client c : Int)
    (chunk u : List Nat) (hnd : st.clients.Nodup) (hu : st.names client = some u)
    (hc : c ∈ st.clients) (hcc : c ≠ client) :
    (handleData st client chunk).sends =
      (st.clients.filter (fun x => x ≠ client)).map
        (fun x => (x, u ++ colonSep ++ cstr chunk)) ∧
    ((handleData st client chunk).sends.map Prod.fst).count c = 1 ∧
    ((handleData st client chunk).sends.map Prod.fst).count client = 0 := by
  simp only [handleData, hu]
  exact ⟨broadcast_eq_map_filter _ _ _,
         broadcast_target_count_one _ _ _ _ hnd hc hcc,
         broadcast_target_count_excluded _ _ _⟩

/-- Concrete state for witnesses: clients 3 and 4, client 3 named "alice". -/
def wSt1 : ServerState :=
  { clients := [3, 4], names := fun x => if x = 3 then some (strBytes "alice") else none }

/-- Witness for C1: client 4 receives `"alice: hi"` exactly once. -/
theorem C1_regular_message_broadcast_witness :
    wSt1.clients.Nodup ∧ wSt1.names 3 = some (strBytes "alice") ∧
    (4 : Int) ∈ wSt1.clients ∧ (4 : Int) ≠ 3 ∧
    ((handleData wSt1 3 (strBytes "hi")).sends.map Prod.fst).count 4 = 1 :=
  ⟨by decide, by decide, by decide, by decide,
   (C1_regular_message_broadcast wSt1 3 4 (strBytes "hi") (strBytes "alice")
      (by decide) (by decide) (by decide) (by decide)).2.1⟩

/-- Concrete state for the C3 counterexample: two clients, no usernames yet. -/
def cSt3 : ServerState := { clients := [5, 7], names := fun _ => none }

/-- C3 counterexample: the first chunk [97, 0, 98] ("a", NUL, "b") received
from client 5 is recorded as [97] ("a"), not verbatim: `std::string
message(buffer)` truncates the buffer at the first NUL byte. -/
theorem C3_counterexample :
    (handleData cSt3 5 [97, 0, 98]).state.names 5 = some [97] ∧
    ¬ (handleData cSt3 5 [97, 0, 98]).state.names 5 = some [97, 0, 98] := by
  constructor <;> decide

/-- C3 (amended): on the first-message path the received chunk, truncated at
its first NUL byte (and otherwise untrimmed and unvalidated), is recorded as
the connection's username, and the join notice `"<username> has joined the
chat!"` is broadcast excluding the sender: every other client receives it
exactly once and the sender receives it zero times. -/
theorem C3_first_message_join (st : ServerState) (client c : Int) (chunk : List Nat)
    (hnd : st.clients.Nodup) (hnone : st.names client = none)
    (hc : c ∈ st.clients) (hcc : c ≠ client) :
    (handleData st client chunk).state.names client = some (cstr chunk) ∧
    (handleData st client chunk).sends =
      (st.clients.filter (fun x => x ≠ client)).map
        (fun x => (x, cstr chunk ++ joinedSuffix)) ∧
    ((handleData st client chunk).sends.map Prod.fst).count c = 1 ∧
    ((handleData st client chunk).sends.map Prod.fst).count client = 0 := by
  simp only [handleData, hnone]
  exact ⟨by simp [mapInsert],
         broadcast_eq_map_filter _ _ _,
         broadcast_target_count_one _ _ _ _ hnd hc hcc,
         broadcast_target_count_excluded _ _ _⟩

/-- Witness for C3 (amended): client 4 sends "bob", client 3 receives the
join notice exactly once. -/
theorem C3_first_message_join_witness :
    wSt1.clients.Nodup ∧ wSt1.names 4 = none ∧
    (3 : Int) ∈ wSt1.clients ∧ (3 : Int) ≠ 4 ∧
    ((handleData wSt1 4 (strBytes "bob")).sends.map Prod.fst).count 3 = 1 :=
  ⟨by decide, by decide, by decide, by decide,
   (C3_first_message_join wSt1 4 3 (strBytes "bob") (by decide) (by decide)
      (by decide) (by decide)).2.2.1⟩

/-- Concrete state for the C4 counterexample: clients 3 and 4 both
registered the username "alice". -/
def cSt4 : ServerState :=
  { clients := [3, 4],
    names := fun x => if x = 3 ∨ x = 4 then some (strBytes "alice") else none }

/-- C4 counterexample: after client 3 (named "alice") disconnects and its
UsernameMap entry is erased, the username "alice" is still associated with
the tracked connection 4, which registered the same name, so the claim's
final clause fails. -/
theorem C4_counterexample :
    (4 : Int) ∈ (handleDisconnect cSt4 0 3).state.clients ∧
    (handleDisconnect cSt4 0 3).state.names 4 = some (strBytes "alice") := by
  constructor <;> decide

/-- C4 (amended): for a connection with a nonempty recorded username, a zero
or negative read broadcasts, in this order, exactly one departure notice
`"<username> has left the chat"` with exclusion sentinel `-1` (excluding
nobody, so every currently tracked connection receives it exactly once),
then closes the connection, removes it from the clients vector and erases
its UsernameMap entry; afterwards that connection's identity is untracked
and has no UsernameMap entry. (The username string itself can remain
associated with another connection that registered the same name.) -/
theorem C4_departure_cleanup (st : ServerState) (i : Nat) (client c : Int) (u : List Nat)
    (hnd : st.clients.Nodup) (hi : st.clients[i]? = some client)
    (hu : st.names client = some u) (hune : u ≠ [])
    (hc : c ∈ st.clients) (hpos : ∀ x ∈ st.clients, 0 ≤ x) :
    (handleDisconnect st i client).sends =
      st.clients.map (fun x => (x, u ++ leftSuffix)) ∧
    ((handleDisconnect st i client).sends.map Prod.fst).count c = 1 ∧
    (handleDisconnect st i client).ops =
      [Op.broadcastCall, Op.clientErase, Op.nameErase] ∧
    (handleDisconnect st i client).closed = [client] ∧
    (handleDisconnect st i client).state.clients = st.clients.eraseIdx i ∧
    client ∉ (handleDisconnect st i client).state.clients ∧
    (handleDisconnect st i client).state.names client = none := by
  have hsentinel : ∀ x ∈ st.clients, x ≠ (-1 : Int) := by
    intro x hx
    have := hpos x hx
    omega
  have hnotmem : client ∉ st.clients.eraseIdx i :=
    not_mem_eraseIdx_of_nodup _ _ _ hnd hi
  refine ⟨?_, ?_, ?_, ?_, handleDisconnect_clients st i client, ?_,
          handleDisconnect_names_client st i client⟩
  · simp only [handleDisconnect, hu, if_neg hune]
    exact broadcast_exclude_sentinel _ _ _ hsentinel
  · simp only [handleDisconnect, hu, if_neg hune]
    rw [broadcast_exclude_sentinel _ _ _ hsentinel, List.map_map]
    have hcomp : (Prod.fst ∘ fun x : Int => (x, u ++ leftSuffix)) = id := rfl
    rw [hcomp, List.map_id]
    exact count_eq_one_of_nodup_mem hnd hc
  · simp [handleDisconnect, hu, hune]
  · simp [handleDisconnect, hu, hune]
  · rw [handleDisconnect_clients]
    exact hnotmem

/-- Witness for C4 (amended) at a concrete two-client state. -/
theorem C4_departure_cleanup_witness :
    wSt1.clients.Nodup ∧ wSt1.clients[0]? = some 3 ∧
    wSt1.names 3 = some (strBytes "alice") ∧ strBytes "alice" ≠ [] ∧
    (4 : Int) ∈ wSt1.clients ∧ (∀ x ∈ wSt1.clients, (0 : Int) ≤ x) ∧
    (handleDisconnect wSt1 0 3).sends =
      wSt1.clients.map (fun x => (x, strBytes "alice" ++ leftSuffix)) :=
  ⟨by decide, by decide, by decide, by decide, by decide, by decide,
   (C4_departure_cleanup wSt1 0 3 4 (strBytes "alice") (by decide) (by decide)
      (by decide) (by decide) (by decide) (by decide)).1⟩

/-- C5: a client that disconnects before any username was recorded triggers
no broadcast at all, only the bare-socket log line; afterwards it is gone
from the clients vector and has no UsernameMap entry, so a later connection
reusing the same descriptor value inherits no stale username state. -/
theorem C5_disconnect_before_username (st : ServerState) (i : Nat) (client : Int)
    (hnd : st.clients.Nodup) (hi : st.clients[i]? = some client)
    (hnone : st.names client = none) :
    (handleDisconnect st i client).sends = [] ∧
    (handleDisconnect st i client).logs = [LogEntry.bareSocket client] ∧
    (handleDisconnect st i client).state.clients = st.clients.eraseIdx i ∧
    client ∉ (handleDisconnect st i client).state.clients ∧
    (handleDisconnect st i client).state.names client = none := by
  refine ⟨?_, ?_, handleDisconnect_clients st i client, ?_,
          handleDisconnect_names_client st i client⟩
  · simp [handleDisconnect, hnone]
  · simp [handleDisconnect, hnone]
  · rw [handleDisconnect_clients]
    exact not_mem_eraseIdx_of_nodup _ _ _ hnd hi

/-- Witness for C5: client 5 of `cSt3` disconnects before naming itself. -/
theorem C5_disconnect_before_username_witness :
    cSt3.clients.Nodup ∧ cSt3.clients[0]? = some 5 ∧ cSt3.names 5 = none ∧
    ((handleDisconnect cSt3 0 5).sends = [] ∧
     (handleDisconnect cSt3 0 5).logs = [LogEntry.bareSocket 5] ∧
     (handleDisconnect cSt3 0 5).state.clients = cSt3.clients.eraseIdx 0 ∧
     (5 : Int) ∉ (handleDisconnect cSt3 0 5).state.clients ∧
     (handleDisconnect cSt3 0 5).state.names 5 = none) :=
  ⟨by decide, by decide, by decide,
   C5_disconnect_before_username cSt3 0 5 (by decide) (by decide) (by decide)⟩

/-- C10: a connection whose recorded username is the empty string (its
UsernameMap entry exists but holds "") is handled on disconnect exactly like
a connection that never sent a username: the bare socket is logged, nothing
is broadcast, and the connection and its entry are removed. -/
theorem C10_empty_username_disconnect (st : ServerState) (i : Nat) (client : Int)
    (hnd : st.clients.Nodup) (hi : st.clients[i]? = some client)
    (hu : st.names client = some []) :
    (st.names client).isSome = true ∧
    (handleDisconnect st i client).sends = [] ∧
    (handleDisconnect st i client).logs = [LogEntry.bareSocket client] ∧
    (handleDisconnect st i client).state.clients = st.clients.eraseIdx i ∧
    client ∉ (handleDisconnect st i client).state.clients ∧
    (handleDisconnect st i client).state.names client = none := by
  refine ⟨?_, ?_, ?_, handleDisconnect_clients st i client, ?_,
          handleDisconnect_names_client st i client⟩
  · simp [hu]
  · simp [handleDisconnect, hu]
  · simp [handleDisconnect, hu]
  · rw [handleDisconnect_clients]
    exact not_mem_eraseIdx_of_nodup _ _ _ hnd hi

/-- Concrete state for the C10 witness: client 5 recorded the empty
username (as after a first chunk starting with a NUL byte), client 7 has
none. -/
def wSt10 : ServerState :=
  { clients := [5, 7], names := fun x => if x = 5 then some [] else none }

/-- Witness for C10 at a concrete state. -/
theorem C10_empty_username_disconnect_witness :
    wSt10.clients.Nodup ∧ wSt10.clients[0]? = some 5 ∧ wSt10.names 5 = some [] ∧
    ((wSt10.names 5).isSome = true ∧
     (handleDisconnect wSt10 0 5).sends = [] ∧
     (handleDisconnect wSt10 0 5).logs = [LogEntry.bareSocket 5] ∧
     (handleDisconnect wSt10 0 5).state.clients = wSt10.clients.eraseIdx 0 ∧
     (5 : Int) ∉ (handleDisconnect wSt10 0 5).state.clients ∧
     (handleDisconnect wSt10 0 5).state.names 5 = none) :=
  ⟨by decide, by decide, by decide,
   C10_empty_username_disconnect wSt10 0 5 (by decide) (by decide) (by decide)⟩

/-- C9: once a username is recorded for a connection, no later read event on
any connection overwrites that entry; the entry disappears only on the
disconnection path of its own connection, together with the connection
itself. -/
theorem C9_username_never_overwritten (st : ServerState) (i : Nat) (client c : Int)
    (u : List Nat) (r : ReadResult)
    (hnd : st.clients.Nodup) (hi : st.clients[i]? = some client)
    (hu : st.names c = some u) :
    (handleRead st i client r).state.names c = some u ∨
    (r = ReadResult.disconnect ∧ c = client ∧
     (handleRead st i client r).state.names c = none ∧
     c ∉ (handleRead st i client r).state.clients) := by
  cases r with
  | data chunk =>
      left
      by_cases hcc : c = client
      · subst hcc
        simp [handleRead, handleData, hu]
      · cases hnc : st.names client with
        | none => simp [handleRead, handleData, hnc, mapInsert, hcc, hu]
        | some v => simp [handleRead, handleData, hnc, hu]
  | disconnect =>
      by_cases hcc : c = client
      · subst hcc
        right
        refine ⟨rfl, rfl, handleDisconnect_names_client st i c, ?_⟩
        rw [handleRead, handleDisconnect_clients]
        exact not_mem_eraseIdx_of_nodup _ _ _ hnd hi
      · left
        rw [handleRead, handleDisconnect_names_other st i client c hcc]
        exact hu

/-- Witness for C9: a chat line from client 3 leaves its entry unchanged. -/
theorem C9_username_never_overwritten_witness :
    wSt1.clients.Nodup ∧ wSt1.clients[0]? = some 3 ∧
    wSt1.names 3 = some (strBytes "alice") ∧
    ((handleRead wSt1 0 3 (ReadResult.data (strBytes "hi"))).state.names 3 =
        some (strBytes "alice") ∨
     (ReadResult.data (strBytes "hi") = ReadResult.disconnect ∧ (3 : Int) = 3 ∧
      (handleRead wSt1 0 3 (ReadResult.data (strBytes "hi"))).state.names 3 = none ∧
      (3 : Int) ∉ (handleRead wSt1 0 3 (ReadResult.data (strBytes "hi"))).state.clients)) :=
  ⟨by decide, by decide, by decide,
   C9_username_never_overwritten wSt1 0 3 3 (strBytes "alice")
     (ReadResult.data (strBytes "hi")) (by decide) (by decide) (by decide)⟩

/-- C7 counterexample: a disconnect read event from a client with no
UsernameMap entry performs two UsernameMap mutations, not at most one: the
lookup `client_names[client]` inserts an empty entry and the cleanup then
erases it. -/
theorem C7_counterexample :
    (handleRead { clients := [6], names := fun _ => none } 0 6
        ReadResult.disconnect).ops.countP (fun o => isNameOp o) = 2 ∧
    ¬ ((handleRead { clients := [6], names := fun _ => none } 0 6
        ReadResult.disconnect).ops.countP (fun o => isNameOp o) ≤ 1) := by
  constructor <;> decide

/-- C7 (amended): every read event performs at most one clients-vector
mutation (always a removal) and at most one broadcast invocation; it
performs at most one UsernameMap mutation except on the disconnect path for
a connection with no UsernameMap entry, where the lookup
`client_names[client]` inserts an empty entry that the cleanup immediately
erases — two mutations whose net effect on the map is nil (the connection
ends with no entry). -/
theorem C7_side_effect_bounds (st : ServerState) (i : Nat) (client : Int) (r : ReadResult) :
    (handleRead st i client r).ops.count Op.clientErase ≤ 1 ∧
    (handleRead st i client r).ops.count Op.broadcastCall ≤ 1 ∧
    ((handleRead st i client r).ops.countP (fun o => isNameOp o) ≤ 1 ∨
      (r = ReadResult.disconnect ∧ st.names client = none ∧
       (handleRead st i client r).ops.countP (fun o => isNameOp o) = 2 ∧
       (handleRead st i client r).state.names client = none)) := by
  cases r with
  | data chunk =>
      cases hnc : st.names client with
      | none =>
          refine ⟨?_, ?_, Or.inl ?_⟩ <;> simp [handleRead, handleData, hnc] <;> decide
      | some v =>
          refine ⟨?_, ?_, Or.inl ?_⟩ <;> simp [handleRead, handleData, hnc] <;> decide
  | disconnect =>
      cases hnc : st.names client with
      | none =>
          refine ⟨?_, ?_, Or.inr ⟨rfl, rfl, ?_, handleDisconnect_names_client st i client⟩⟩ <;>
            simp [handleRead, handleDisconnect, hnc] <;> decide
      | some v =>
          by_cases hv : v = [] <;>
            refine ⟨?_, ?_, Or.inl ?_⟩ <;>
              simp [handleRead, handleDisconnect, hnc, hv] <;> decide

/-! ### The scan loop -/

theorem scanFrom_stop (ready : Int → Bool) (events : Int → ReadResult)
    (st : ServerState) (i : Nat) (h : st.clients.length ≤ i) :
    scanFrom ready events st i = { state := st, sends := [], visited := [] } := by
  rw [scanFrom]
  simp [Nat.not_lt.mpr h]

theorem scanFrom_visited_notReady (ready : Int → Bool) (events : Int → ReadResult)
    (st : ServerState) (i : Nat) (h : i < st.clients.length)
    (hr : ready st.clients[i] = false) :
    (scanFrom ready events st i).visited =
      st.clients[i] :: (scanFrom ready events st (i + 1)).visited := by
  rw [scanFrom]
  simp [h, hr]

theorem scanFrom_visited_data (ready : Int → Bool) (events : Int → ReadResult)
    (st : ServerState) (i : Nat) (h : i < st.clients.length)
    (hr : ready st.clients[i] = true) (chunk : List Nat)
    (hev : events st.clients[i] = ReadResult.data chunk) :
    (scanFrom ready events st i).visited =
      st.clients[i] ::
        (scanFrom ready events (handleData st st.clients[i] chunk).state (i + 1)).visited := by
  rw [scanFrom]
  simp [h, hr, hev]

theorem scanFrom_visited_disconnect (ready : Int → Bool) (events : Int → ReadResult)
    (st : ServerState) (i : Nat) (h : i < st.clients.length)
    (hr : ready st.clients[i] = true)
    (hev : events st.clients[i] = ReadResult.disconnect) :
    (scanFrom ready events st i).visited =
      st.clients[i] ::
        (scanFrom ready events (handleDisconnect st i st.clients[i]).state i).visited := by
  rw [scanFrom]
  simp [h, hr, hev]

theorem drop_eraseIdx_same (l : List Int) (i : Nat) (h : i < l.length) :
    (l.eraseIdx i).drop i = l.drop (i + 1) := by
  rw [List.eraseIdx_eq_take_drop_succ]
  exact List.drop_left' (List.length_take_of_le (Nat.le_of_lt h))

/-- The scan loop visits, in order, exactly the elements of the clients
vector it started from, whatever mixture of removals (disconnects) and
in-place events happens along the way: the erase-plus-index-decrement logic
skips nothing and revisits nothing. -/
theorem scanFrom_visited (ready : Int → Bool) (events : Int → ReadResult) :
    ∀ (n : Nat) (st : ServerState) (i : Nat), st.clients.length - i ≤ n →
      (scanFrom ready events st i).visited = st.clients.drop i := by
  intro n
  induction n with
  | zero =>
      intro st i h
      have hle : st.clients.length ≤ i := by omega
      rw [scanFrom_stop ready events st i hle]
      simp [List.drop_eq_nil_of_le hle]
  | succ n ih =>
      intro st i h
      by_cases hlt : i < st.clients.length
      · have hdrop : st.clients.drop i = st.clients[i] :: st.clients.drop (i + 1) :=
          List.drop_eq_getElem_cons hlt
        cases hr : ready st.clients[i] with
        | false =>
            rw [scanFrom_visited_notReady ready events st i hlt hr,
                ih st (i + 1) (by omega), hdrop]
        | true =>
            cases hev : events st.clients[i] with
            | data chunk =>
                rw [scanFrom_visited_data ready events st i hlt hr chunk hev]
                have hih := ih (handleData st st.clients[i] chunk).state (i + 1)
                  (by rw [handleData_clients]; omega)
                rw [hih, handleData_clients, hdrop]
            | disconnect =>
                rw [scanFrom_visited_disconnect ready events st i hlt hr hev]
                have hih := ih (handleDisconnect st i st.clients[i]).state i
                  (by rw [handleDisconnect_clients, List.length_eraseIdx_of_lt hlt]; omega)
                rw [hih, handleDisconnect_clients, drop_eraseIdx_same _ _ hlt, hdrop]
      · have hle : st.clients.length ≤ i := by omega
        rw [scanFrom_stop ready events st i hle]
        simp [List.drop_eq_nil_of_le hle]

/-- C6: during one iteration's scan of the clients vector, whatever
removals occur at the current index (erase plus `i--`), the scan visits
every element of the starting vector exactly once and in order — no element
is skipped and none is visited twice, for every position of removed elements
and every vector size. -/
theorem C6_scan_visits_each_once (ready : Int → Bool) (events : Int → ReadResult)
    (st : ServerState) (c : Int) (hnd : st.clients.Nodup) (hc : c ∈ st.clients) :
    (scanFrom ready events st 0).visited = st.clients ∧
    (scanFrom ready events st 0).visited.count c = 1 := by
  have hv : (scanFrom ready events st 0).visited = st.clients.drop 0 :=
    scanFrom_visited ready events st.clients.length st 0 (by omega)
  rw [List.drop_zero] at hv
  refine ⟨hv, ?_⟩
  rw [hv]
  exact count_eq_one_of_nodup_mem hnd hc

/-- All descriptors ready, client 3 disconnects mid-scan, the others send a
chat line: concrete scenario exercising erase-during-iteration. -/
def wReady : Int → Bool := fun _ => true

/-- Concrete event assignment for the C6 witness: descriptor 3 disconnects,
every other descriptor delivers the chunk "hi". -/
def wEvents : Int → ReadResult :=
  fun c => if c = 3 then ReadResult.disconnect else ReadResult.data (strBytes "hi")

/-- Witness for C6: with client 3 removed at index 0 mid-scan, client 4 is
still visited exactly once. -/
theorem C6_scan_visits_each_once_witness :
    wSt1.clients.Nodup ∧ (4 : Int) ∈ wSt1.clients ∧
    ((scanFrom wReady wEvents wSt1 0).visited = wSt1.clients ∧
     (scanFrom wReady wEvents wSt1 0).visited.count 4 = 1) :=
  ⟨by decide, by decide,
   C6_scan_visits_each_once wReady wEvents wSt1 4 (by decide) (by decide)⟩

/-- C8 counterexample: with connection 3 tracked, ready, and holding data,
an iteration whose accept() fails reads nothing at all: no connection is
visited in that same iteration, contradicting the claim that every ready
connection is still read and delegated in the same iteration. -/
theorem C8_counterexample :
    wReady 3 = true ∧ (3 : Int) ∈ wSt1.clients ∧
    (loopIteration wReady wEvents (ListenerEvent.accepted (-1)) wSt1).visited = [] := by
  refine ⟨rfl, by decide, rfl⟩

/-- C8 (amended): when accept() fails (returns a negative descriptor), the
failure is logged and the server does not crash, but the `continue`
statement restarts the outer while loop: the client scan of that iteration
is skipped entirely, so connections reported ready by the same select call
are not read until a later iteration, and the global state is unchanged. -/
theorem C8_accept_failure_skips_scan (ready : Int → Bool) (events : Int → ReadResult)
    (st : ServerState) (fd : Int) (h : fd < 0) :
    loopIteration ready events (ListenerEvent.accepted fd) st =
      { state := st, sends := [], visited := [], logs := [LogEntry.acceptFailed] } := by
  simp [loopIteration, if_pos h]

/-- Witness for C8 (amended) at a concrete failed accept. -/
theorem C8_accept_failure_skips_scan_witness :
    (-1 : Int) < 0 ∧
    loopIteration wReady wEvents (ListenerEvent.accepted (-1)) wSt1 =
      { state := wSt1, sends := [], visited := [], logs := [LogEntry.acceptFailed] } :=
  ⟨by decide, C8_accept_failure_skips_scan wReady wEvents wSt1 (-1) (by decide)⟩

end ChatServer
